import Mathlib

/-!
Security-group change notification handler (`src/app.js`): a shallow embedding
of `exports.handler` and `sendEmail`.

* JavaScript values are the values `JSON.parse` can return, plus `undefined`
  (the result of reading a property that is not there). Strings are sequences
  of Unicode characters.
* `JSON.parse`, `JSON.stringify` and `ses.sendEmail` are library code, not code
  of `app.js`: they are parameters of the embedding (`Runtime`, `Ses`).
* Numbers are IEEE doubles in JavaScript. The handler never computes with a
  number; it can only test one for truthiness or turn it into text, so a number
  is kept as exactly these two observations.
* The regular expression of line 64 is embedded as a term of `Regex` and run by
  a backtracking matcher; it has no back-references or look-around, so `test`
  decides whether some substring belongs to its language.
* A run of the handler is recorded as a `Trace`: the `console.log` lines, the
  texts handed to `JSON.parse`, the requests handed to `ses.sendEmail`, and how
  the invocation ended (`context.done(...)` or an uncaught exception).
* The statements about a single invocation take the module state as a value
  (`handler rt m ses event`). For sequences of invocations the same statements
  are given a second time as steps on the module state (`Stateful.handler`), so
  that what one invocation leaves behind is what the next one finds.
-/

namespace SgNotify

/-! ## JavaScript values -/

/-- JavaScript values reachable from a JSON document. `num nonzero text` is a
number seen through `ToBoolean` (`nonzero`) and `ToString` (`text`); `obj` lists
the own properties of a plain object, looked up by first match. -/
inductive JSVal where
  | undefined
  | null
  | bool (b : Bool)
  | num (nonzero : Bool) (text : String)
  | str (s : String)
  | arr (items : List JSVal)
  | obj (fields : List (String × JSVal))

/-- Exceptions the handler can end with. `parseError` is the `SyntaxError` of
`JSON.parse`, `error msg` is `new Error(msg)` thrown by `sendEmail`. -/
inductive JSError where
  | typeError
  | parseError
  | error (msg : String)

namespace JSVal

/-- ToBoolean, as applied by `!v`, `v && ...` and `if (v)`. -/
def truthy : JSVal → Bool
  | undefined => false
  | null => false
  | bool b => b
  | num nonzero _ => nonzero
  | str s => s != ""
  | arr _ => true
  | obj _ => true

/-- Property read `v.name` / `v["name"]` for a name that is neither `length`, an
array index, nor a member of a built-in prototype (every name `app.js` reads on a
parsed value is of this kind): reading from `undefined` or `null` throws a
TypeError, a plain object gives its own property or `undefined`, and every
other value gives `undefined`. -/
def getProp : JSVal → String → Except JSError JSVal
  | undefined, _ => .error .typeError
  | null, _ => .error .typeError
  | obj fields, name => .ok ((fields.lookup name).getD undefined)
  | _, _ => .ok undefined

mutual
/-- `Array.prototype.join(sep)` on the elements of an array. -/
def joinItems (sep : String) : List JSVal → Except JSError String
  | [] => .ok ""
  | x :: rest =>
    match itemStr x, rest, joinItems sep rest with
    | .ok a, [], _ => .ok a
    | .ok a, _ :: _, .ok b => .ok (a ++ sep ++ b)
    | .error e, _, _ => .error e
    | .ok _, _ :: _, .error e => .error e
termination_by structural xs => xs
/-- The text `join` uses for one element: empty for `undefined` and `null`,
ToString otherwise. A plain object is `[object Object]` unless an own property
shadows `toString` (a JSON value is not callable, so ToPrimitive then throws a
TypeError); an array is its elements joined by a comma. -/
def itemStr : JSVal → Except JSError String
  | undefined => .ok ""
  | null => .ok ""
  | bool b => .ok (if b then "true" else "false")
  | num _ text => .ok text
  | str s => .ok s
  | arr items => joinItems "," items
  | obj fields => if (fields.lookup "toString").isSome then .error .typeError
                  else .ok "[object Object]"
termination_by structural v => v
end

/-- ToString, as applied by `"text" + v`, `JSON.parse(v)` and `regex.test(v)`. -/
def toStr : JSVal → Except JSError String
  | undefined => .ok "undefined"
  | null => .ok "null"
  | v => itemStr v

/-- String concatenation `"text" + v` with a string on the left. -/
def concat (text : String) (v : JSVal) : Except JSError String :=
  match toStr v with
  | .ok s => .ok (text ++ s)
  | .error e => .error e

/-- Loose equality `v == lit` against a string literal `lit` that is either empty
(StringToNumber gives +0) or not a numeric literal (StringToNumber gives NaN):
the three literals of `app.js`, `'No'`, `'False'` and `''`, are of this kind.
Strings compare as strings, `undefined` and `null` equal no string, a boolean or
a number is compared with the number `lit` converts to, and an array or object
is converted to a primitive (a string here) first. -/
def looseEqStr (v : JSVal) (lit : String) : Except JSError Bool :=
  match v with
  | undefined => .ok false
  | null => .ok false
  | bool b => .ok (lit == "" && !b)
  | num nonzero _ => .ok (lit == "" && !nonzero)
  | str s => .ok (s == lit)
  | w =>
    match toStr w with
    | .ok s => .ok (s == lit)
    | .error e => .error e

/-- Strict equality `v === lit` against a string literal. -/
def strictEqStr : JSVal → String → Bool
  | str s, lit => s == lit
  | _, _ => false

end JSVal

/-! ## The regular expression of line 64 -/

/-- Regular expressions, as far as `emailRegex` needs them: one character, a
character class given by ranges, concatenation, and a greedy quantifier
`r{lo,hi}` (`hi = none` is unbounded). Groups only matter for captures, which
`test` does not return. -/
inductive Regex where
  | chr (c : Char)
  | cls (ranges : List (Char × Char))
  | seq (a b : Regex)
  | rep (r : Regex) (lo : Nat) (hi : Option Nat)

namespace Regex

/-- Membership of a character in a class given by inclusive ranges. -/
def classHas (ranges : List (Char × Char)) (c : Char) : Bool :=
  ranges.any fun p => p.1.toNat ≤ c.toNat && c.toNat ≤ p.2.toNat

/-- Class membership under the `i` flag for a class of ASCII ranges: a character
matches when the class holds a character with the same canonical form, that is
its own ASCII lower-case or upper-case variant (without the `u` flag a
non-ASCII character is never canonicalised to an ASCII one). -/
def classHasI (ranges : List (Char × Char)) (c : Char) : Bool :=
  classHas ranges c.toLower || classHas ranges c.toUpper

/-- The RepeatMatcher of the language specification for an atom matcher `step`:
try one more iteration if the upper bound allows it, else (or on failure of
that branch) leave the loop once the lower bound is reached. An iteration past
the lower bound that consumes nothing is rejected. `fuel` bounds the number of
iterations. -/
def repK (step : (List Char → Bool) → List Char → Bool) :
    Nat → Nat → Option Nat → (List Char → Bool) → List Char → Bool
  | 0, _, _, _, _ => false
  | fuel + 1, lo, hi, k, s =>
    (hi != some 0 &&
      step (fun t => (lo != 0 || decide (t.length < s.length)) &&
              repK step fuel (lo - 1) (hi.map (· - 1)) k t) s)
    || (lo == 0 && k s)

/-- Backtracking matcher in continuation-passing style, under the `i` flag:
`matchK r k s` holds when `r` matches a start of `s` in such a way that the
continuation `k` accepts the rest. -/
def matchK : Regex → (List Char → Bool) → List Char → Bool
  | chr c, k, s =>
    match s with
    | [] => false
    | d :: t => (d.toUpper == c.toUpper) && k t
  | cls ranges, k, s =>
    match s with
    | [] => false
    | d :: t => classHasI ranges d && k t
  | seq a b, k, s => matchK a (fun t => matchK b k t) s
  | rep r lo hi, k, s => repK (matchK r) (lo + s.length + 1) lo hi k s

/-- Search for a match starting at any index, first index first. -/
def searchFrom (r : Regex) : List Char → Bool
  | [] => matchK r (fun _ => true) []
  | c :: t => matchK r (fun _ => true) (c :: t) || searchFrom r t

/-- `RegExp.prototype.test` for a regular expression without the `g` and `y`
flags: is there a match anywhere in the string. -/
def test (r : Regex) (s : String) : Bool := searchFrom r s.toList

/-- The regular expression matches the string from its first to its last
character: what `test` would decide if the pattern were anchored with `^`
and `$`. -/
def fullMatch (r : Regex) (s : String) : Bool := matchK r (fun t => t.isEmpty) s.toList

/-- The class `\w`. -/
def word : List (Char × Char) := [('A', 'Z'), ('a', 'z'), ('0', '9'), ('_', '_')]

/-- The class `[\w-]`. -/
def wordDash : List (Char × Char) := word ++ [('-', '-')]

/-- The class `[\w-\+\.]`: after the class escape `\w` the dash is literal. -/
def localChar : List (Char × Char) := word ++ [('-', '-'), ('+', '+'), ('.', '.')]

/-- First group, the local part: `([\w-\+\.]+(?:\.[\w-]+)*)`. -/
def localPart : Regex :=
  seq (rep (cls localChar) 1 none)
      (rep (seq (chr '.') (rep (cls wordDash) 1 none)) 0 none)

/-- Second group, the domain labels: `((?:[\w-]+\.)*\w[\w-]{0,66})`. -/
def domainLabels : Regex :=
  seq (rep (seq (rep (cls wordDash) 1 none) (chr '.')) 0 none)
      (seq (cls word) (rep (cls wordDash) 0 (some 66)))

/-- Third group, the top-level domain: `([a-z]{2,6}(?:\.[a-z]{2})?)`. -/
def tld : Regex :=
  seq (rep (cls [('a', 'z')]) 2 (some 6))
      (rep (seq (chr '.') (rep (cls [('a', 'z')]) 2 (some 2))) 0 (some 1))

/-- The `emailRegex` of line 64 (flag `i`, no anchors):
`/([\w-\+\.]+(?:\.[\w-]+)*)@((?:[\w-]+\.)*\w[\w-]{0,66})\.([a-z]{2,6}(?:\.[a-z]{2})?)/i`. -/
def emailRegex : Regex :=
  seq localPart (seq (chr '@') (seq domainLabels (seq (chr '.') tld)))

end Regex

/-! ## The environment of the handler -/

/-- The two `JSON` functions the handler calls. `parse text` is
`JSON.parse(text)`, `none` when it throws a SyntaxError; `stringify v indent` is
`JSON.stringify(v, null, indent)` for a JSON value `v`. -/
structure Runtime where
  parse : String → Option JSVal
  stringify : JSVal → Nat → String

/-- The `Destination` of a send request. -/
structure Destination where
  ToAddresses : List JSVal

/-- A `Data` holder, as in `Subject: { Data: subject }`. -/
structure Content where
  Data : String

/-- The `Body` of a message: `{ Text: { Data: message } }`. -/
structure Body where
  Text : Content

/-- The `Message` of a send request. -/
structure Message where
  Body : Body
  Subject : Content

/-- The `emailParams` object built by `sendEmail` (lines 97-112). -/
structure EmailParams where
  Destination : Destination
  Message : Message
  Source : String

/-- The external send capability `ses.sendEmail`: the `err` argument it hands to
its callback, as text (`none` when the mail was accepted). -/
abbrev Ses := EmailParams → Option String

/-- The module-level state of `app.js` (line 16). -/
structure ModuleState where
  fromAddress : String

/-- The event delivered to the handler: an object whose `Records`, when present,
is an array. -/
structure Event where
  Records : Option (List JSVal)

/-- How an invocation ends: `context.done(...)` with the result passed (none for
`context.done()`), or an uncaught exception. -/
inductive Ending where
  | done (result : Option JSVal)
  | threw (e : JSError)

/-- What one invocation does, in order of occurrence within each list. -/
structure Trace where
  logs : List String
  parsed : List String
  sends : List EmailParams
  ending : Ending

namespace Trace

/-- The run `console.log(line); rest`. -/
def log (line : String) (rest : Trace) : Trace :=
  Trace.mk (line :: rest.logs) rest.parsed rest.sends rest.ending

/-- The run that hands `text` to `JSON.parse` and goes on as `rest`. -/
def parsing (text : String) (rest : Trace) : Trace :=
  Trace.mk rest.logs (text :: rest.parsed) rest.sends rest.ending

/-- The run that hands `req` to `ses.sendEmail` and goes on as `rest`. -/
def sending (req : EmailParams) (rest : Trace) : Trace :=
  Trace.mk rest.logs rest.parsed (req :: rest.sends) rest.ending

/-- The run `context.done(); return;`. -/
def skip : Trace := Trace.mk [] [] [] (.done none)

/-- The run that ends in the uncaught exception `e`. -/
def raise (e : JSError) : Trace := Trace.mk [] [] [] (.threw e)

/-- The run that evaluates `x` and goes on with its value, or ends in the
exception `x` throws. -/
def eval {α : Type} (x : Except JSError α) (k : α → Trace) : Trace :=
  match x with
  | .ok a => k a
  | .error e => raise e

/-- The value `{ success: true }` passed to `context.done` on line 91. -/
def successResult : JSVal := .obj [("success", .bool true)]

/-- Outcome Skipped: `context.done()` without a result and no send request. -/
def Skipped (t : Trace) : Prop := t.ending = .done none ∧ t.sends = []

/-- Outcome Sent: the success signal `context.done(null, { success: true })`. -/
def Succeeded (t : Trace) : Prop := t.ending = .done (some successResult)

end Trace

/-! ## `sendEmail` and `exports.handler` -/

/-- The log line of the structure gate (line 36). -/
def invalidFormatLog : String := "The 'message' format is invalid. Stopping execution..."

/-- The log line of the resource-type gate (line 43). -/
def unsupportedTypeLog : String :=
  "Change notifications are only supported for Security Groups."

/-- The log line of the NotifyOnChange gate (line 52). -/
def notifyDisabledLog : String :=
  "Notifications are not enabled for the Security Group in question."

/-- The log line of the OwnerDL gate (line 66). -/
def ownerInvalidLog : String :=
  "The email address provided in the OwnerDL tag is either missing or invalid."

/-- The one supported resource type (line 42). -/
def securityGroupType : String := "AWS::EC2::SecurityGroup"

/-- The function `sendEmail` (lines 95-125). `callback` is the run of the
completion callback. The request is handed to `ses.sendEmail` once; on an error
the callback of `ses.sendEmail` logs it and throws `new Error(err)` before
reaching `callback()`. -/
def sendEmail (m : ModuleState) (ses : Ses) (toAddress : JSVal) (subject message : String)
    (callback : Trace) : Trace :=
  let emailParams : EmailParams :=
    EmailParams.mk (Destination.mk [toAddress])
      (Message.mk (Body.mk (Content.mk message)) (Content.mk subject)) m.fromAddress
  Trace.sending emailParams <|
    match ses emailParams with
    | some err => Trace.log ("Error: " ++ err) (Trace.raise (.error err))
    | none => Trace.log "Email sent successfully." callback

/-- The array `sgIdentifiers` of lines 75-78. -/
def sgIdentifiers (securityGroupId securityGroupName : JSVal) : Except JSError (List JSVal) :=
  if securityGroupName.truthy then
    match securityGroupName.looseEqStr "" with
    | .ok isEmpty => .ok (if !isEmpty then [securityGroupId, securityGroupName]
                          else [securityGroupId])
    | .error e => .error e
  else .ok [securityGroupId]

/-- Lines 71-92 of `exports.handler`: the three log lines, the subject, the body
and the call of `sendEmail` with the callback `context.done(null, { success: true })`. -/
def notify (rt : Runtime) (m : ModuleState) (ses : Ses) (message : JSVal)
    (owner ownerDL securityGroupId securityGroupName : JSVal) : Trace :=
  Trace.eval (JSVal.concat "Owner: " owner) fun ownerLine =>
  Trace.log ownerLine <|
  Trace.eval (JSVal.concat "Owner DL: " ownerDL) fun ownerDLLine =>
  Trace.log ownerDLLine <|
  Trace.eval (JSVal.concat "Security Group ID: " securityGroupId) fun idLine =>
  Trace.log idLine <|
  Trace.eval (sgIdentifiers securityGroupId securityGroupName) fun identifiers =>
  Trace.eval (JSVal.concat "Security Group " securityGroupId) fun subjectStart =>
  let subject := subjectStart ++ " Was Changed"
  Trace.eval (JSVal.joinItems "/" identifiers) fun joined =>
  Trace.eval (message.getProp "configurationItemDiff") fun diff =>
  let emailMessage :=
    "The security group " ++ joined ++ " was changed.\n\nDetails:\n" ++ rt.stringify diff 2
  Trace.log ("Email Body: " ++ emailMessage) <|
  sendEmail m ses ownerDL subject emailMessage
    (Trace.mk [] [] [] (.done (some Trace.successResult)))

/-- The read `message.configurationItem.tags[name]`. -/
def readTag (message : JSVal) (name : String) : Except JSError JSVal :=
  match message.getProp "configurationItem" with
  | .error e => .error e
  | .ok configurationItem =>
    match configurationItem.getProp "tags" with
    | .error e => .error e
    | .ok tags => tags.getProp name

/-- The read `message.configurationItem.name`. -/
def readItem (message : JSVal) (name : String) : Except JSError JSVal :=
  match message.getProp "configurationItem" with
  | .error e => .error e
  | .ok configurationItem => configurationItem.getProp name

/-- Lines 57-69 of `exports.handler`: the tag reads and the OwnerDL gate. -/
def ownerGate (rt : Runtime) (m : ModuleState) (ses : Ses) (message : JSVal) : Trace :=
  Trace.eval (readTag message "Owner") fun owner =>
  Trace.eval (readTag message "OwnerDL") fun ownerDL =>
  Trace.eval (readItem message "resourceId") fun securityGroupId =>
  Trace.eval (readTag message "Name") fun securityGroupName =>
  if !ownerDL.truthy || ownerDL.strictEqStr "" then Trace.log ownerInvalidLog Trace.skip
  else
    Trace.eval ownerDL.toStr fun text =>
    if !Regex.test Regex.emailRegex text then Trace.log ownerInvalidLog Trace.skip
    else notify rt m ses message owner ownerDL securityGroupId securityGroupName

/-- Lines 48-55 of `exports.handler`: the NotifyOnChange gate. -/
def notifyGate (rt : Runtime) (m : ModuleState) (ses : Ses) (message : JSVal) : Trace :=
  Trace.eval (readTag message "NotifyOnChange") fun notifyOnChange =>
  if !notifyOnChange.truthy then Trace.log notifyDisabledLog Trace.skip
  else
    Trace.eval (notifyOnChange.looseEqStr "No") fun isNo =>
    if isNo then Trace.log notifyDisabledLog Trace.skip
    else
      Trace.eval (notifyOnChange.looseEqStr "False") fun isFalse =>
      if isFalse then Trace.log notifyDisabledLog Trace.skip
      else ownerGate rt m ses message

/-- Lines 34-46 of `exports.handler`: the structure gate and the resource-type
gate, on the parsed message. -/
def validateMessage (rt : Runtime) (m : ModuleState) (ses : Ses) (message : JSVal) : Trace :=
  if !message.truthy then Trace.log invalidFormatLog Trace.skip
  else
    Trace.eval (message.getProp "configurationItemDiff") fun configurationItemDiff =>
    if !configurationItemDiff.truthy then Trace.log invalidFormatLog Trace.skip
    else
      Trace.eval (message.getProp "configurationItem") fun configurationItem =>
      if !configurationItem.truthy then Trace.log invalidFormatLog Trace.skip
      else
        Trace.eval (readItem message "resourceType") fun resourceType =>
        if !resourceType.strictEqStr securityGroupType then
          Trace.log unsupportedTypeLog Trace.skip
        else notifyGate rt m ses message

/-- The function `exports.handler` (lines 21-93): the envelope gate and
`JSON.parse` here, the rest of the body in `validateMessage`, `notifyGate`,
`ownerGate` and `notify`. -/
def handler (rt : Runtime) (m : ModuleState) (ses : Ses) (event : Event) : Trace :=
  match event.Records with
  | none => Trace.skip
  | some [] => Trace.skip
  | some (first :: _) =>
    Trace.eval (first.getProp "Sns") fun sns =>
    if !sns.truthy then Trace.skip
    else
      Trace.eval (sns.getProp "Message") fun payload =>
      if !payload.truthy then Trace.skip
      else
        Trace.eval payload.toStr fun text =>
        Trace.parsing text <|
          match rt.parse text with
          | none => Trace.raise .parseError
          | some message => validateMessage rt m ses message

/-! ## The same statements as steps on the module state

The module of `app.js` is loaded once and `exports.handler` is then called once
per event, so whatever an invocation writes to a module-level variable is seen
by the next one. Here every statement of `sendEmail` and `exports.handler` is a
step that takes the module state before it and returns the module state after
it together with what it does. -/

/-- A piece of an invocation: from the module state before it to the module
state after it and the run it performs. -/
abbrev Step := ModuleState → ModuleState × Trace

namespace Step

/-- The step `console.log(line); rest`. -/
def log (line : String) (rest : Step) : Step := fun m =>
  let after := rest m
  (after.1, Trace.log line after.2)

/-- The step that hands `text` to `JSON.parse` and goes on as `rest`. -/
def parsing (text : String) (rest : Step) : Step := fun m =>
  let after := rest m
  (after.1, Trace.parsing text after.2)

/-- The step that hands `req` to `ses.sendEmail` and goes on as `rest`. -/
def sending (req : EmailParams) (rest : Step) : Step := fun m =>
  let after := rest m
  (after.1, Trace.sending req after.2)

/-- The step `context.done(result)`. -/
def done (result : Option JSVal) : Step := fun m => (m, Trace.mk [] [] [] (.done result))

/-- The step that ends in the uncaught exception `e`. -/
def raise (e : JSError) : Step := fun m => (m, Trace.raise e)

/-- The step that evaluates the expression `x`, which reads no module-level
variable, and goes on with its value, or ends in the exception it throws. -/
def eval {α : Type} (x : Except JSError α) (k : α → Step) : Step := fun m =>
  match x with
  | .ok a => k a m
  | .error e => (m, Trace.raise e)

end Step

namespace Stateful

/-- The function `sendEmail` (lines 95-125) as a step: `Source: fromAddress` on
line 111 reads the module state the call finds. -/
def sendEmail (ses : Ses) (toAddress : JSVal) (subject message : String)
    (callback : Step) : Step := fun m =>
  let emailParams : EmailParams :=
    EmailParams.mk (Destination.mk [toAddress])
      (Message.mk (Body.mk (Content.mk message)) (Content.mk subject)) m.fromAddress
  Step.sending emailParams
    (match ses emailParams with
     | some err => Step.log ("Error: " ++ err) (Step.raise (.error err))
     | none => Step.log "Email sent successfully." callback) m

/-- Lines 71-92 of `exports.handler` as a step. -/
def notify (rt : Runtime) (ses : Ses) (message : JSVal)
    (owner ownerDL securityGroupId securityGroupName : JSVal) : Step :=
  Step.eval (JSVal.concat "Owner: " owner) fun ownerLine =>
  Step.log ownerLine <|
  Step.eval (JSVal.concat "Owner DL: " ownerDL) fun ownerDLLine =>
  Step.log ownerDLLine <|
  Step.eval (JSVal.concat "Security Group ID: " securityGroupId) fun idLine =>
  Step.log idLine <|
  Step.eval (sgIdentifiers securityGroupId securityGroupName) fun identifiers =>
  Step.eval (JSVal.concat "Security Group " securityGroupId) fun subjectStart =>
  let subject := subjectStart ++ " Was Changed"
  Step.eval (JSVal.joinItems "/" identifiers) fun joined =>
  Step.eval (message.getProp "configurationItemDiff") fun diff =>
  let emailMessage :=
    "The security group " ++ joined ++ " was changed.\n\nDetails:\n" ++ rt.stringify diff 2
  Step.log ("Email Body: " ++ emailMessage) <|
  sendEmail ses ownerDL subject emailMessage (Step.done (some Trace.successResult))

/-- Lines 57-69 of `exports.handler` as a step. -/
def ownerGate (rt : Runtime) (ses : Ses) (message : JSVal) : Step :=
  Step.eval (readTag message "Owner") fun owner =>
  Step.eval (readTag message "OwnerDL") fun ownerDL =>
  Step.eval (readItem message "resourceId") fun securityGroupId =>
  Step.eval (readTag message "Name") fun securityGroupName =>
  if !ownerDL.truthy || ownerDL.strictEqStr "" then
    Step.log ownerInvalidLog (Step.done none)
  else
    Step.eval ownerDL.toStr fun text =>
    if !Regex.test Regex.emailRegex text then Step.log ownerInvalidLog (Step.done none)
    else notify rt ses message owner ownerDL securityGroupId securityGroupName

/-- Lines 48-55 of `exports.handler` as a step. -/
def notifyGate (rt : Runtime) (ses : Ses) (message : JSVal) : Step :=
  Step.eval (readTag message "NotifyOnChange") fun notifyOnChange =>
  if !notifyOnChange.truthy then Step.log notifyDisabledLog (Step.done none)
  else
    Step.eval (notifyOnChange.looseEqStr "No") fun isNo =>
    if isNo then Step.log notifyDisabledLog (Step.done none)
    else
      Step.eval (notifyOnChange.looseEqStr "False") fun isFalse =>
      if isFalse then Step.log notifyDisabledLog (Step.done none)
      else ownerGate rt ses message

/-- Lines 34-46 of `exports.handler` as a step. -/
def validateMessage (rt : Runtime) (ses : Ses) (message : JSVal) : Step :=
  if !message.truthy then Step.log invalidFormatLog (Step.done none)
  else
    Step.eval (message.getProp "configurationItemDiff") fun configurationItemDiff =>
    if !configurationItemDiff.truthy then Step.log invalidFormatLog (Step.done none)
    else
      Step.eval (message.getProp "configurationItem") fun configurationItem =>
      if !configurationItem.truthy then Step.log invalidFormatLog (Step.done none)
      else
        Step.eval (readItem message "resourceType") fun resourceType =>
        if !resourceType.strictEqStr securityGroupType then
          Step.log unsupportedTypeLog (Step.done none)
        else notifyGate rt ses message

/-- The function `exports.handler` (lines 21-93) as a step on the module
state. -/
def handler (rt : Runtime) (ses : Ses) (event : Event) : Step :=
  match event.Records with
  | none => Step.done none
  | some [] => Step.done none
  | some (first :: _) =>
    Step.eval (first.getProp "Sns") fun sns =>
    if !sns.truthy then Step.done none
    else
      Step.eval (sns.getProp "Message") fun payload =>
      if !payload.truthy then Step.done none
      else
        Step.eval payload.toStr fun text =>
        Step.parsing text <|
          match rt.parse text with
          | none => Step.raise .parseError
          | some message => validateMessage rt ses message

/-- A sequence of invocations on one loaded module, each with the answer the
send capability gives during it: every invocation starts in the module state
the one before it left. -/
def invokeAll (rt : Runtime) : ModuleState → List (Ses × Event) → ModuleState × List Trace
  | m, [] => (m, [])
  | m, (ses, event) :: rest =>
    let step := handler rt ses event m
    let later := invokeAll rt step.1 rest
    (later.1, step.2 :: later.2)

end Stateful

/-! ## Inputs of the worked examples -/

/-- A runtime for the worked examples: `JSON.parse` is given on the listed texts
only (any other text counts as a syntax error) and `JSON.stringify` prints the
one diff the examples use, the empty object, as `{}`. -/
def tableRuntime (table : List (String × JSVal)) : Runtime :=
  Runtime.mk (fun text => table.lookup text) (fun _ _ => "\x7b\x7d")

/-- The envelope `{ Records: [ { Sns: { Message: text } } ] }`. -/
def envelope (text : String) : Event :=
  Event.mk (some [.obj [("Sns", .obj [("Message", .str text)])]])

/-- The properties of a message with an empty diff and the given item. -/
def messageFields (item : List (String × JSVal)) : List (String × JSVal) :=
  [("configurationItemDiff", .obj []), ("configurationItem", .obj item)]

/-- The security group `sg-123` with the given tags. -/
def sampleItem (tags : List (String × JSVal)) : List (String × JSVal) :=
  [("resourceType", .str "AWS::EC2::SecurityGroup"), ("resourceId", .str "sg-123"),
   ("tags", .obj tags)]

/-- The tags of the sample of the specification. -/
def sampleTags : List (String × JSVal) :=
  [("NotifyOnChange", .str "Yes"), ("OwnerDL", .str "owner@example.com"),
   ("Name", .str "web-sg")]

/-- The payload text of the sample of the specification. -/
def sampleText : String :=
  "\x7b\"configurationItemDiff\":\x7b\x7d,\"configurationItem\":\x7b\"resourceType\":\"AWS::EC2::SecurityGroup\",\"resourceId\":\"sg-123\",\"tags\":\x7b\"NotifyOnChange\":\"Yes\",\"OwnerDL\":\"owner@example.com\",\"Name\":\"web-sg\"\x7d\x7d\x7d"

/-- Tags with a lower-case `no` and nothing else. -/
def lowerNoTags : List (String × JSVal) := [("NotifyOnChange", .str "no")]

/-- The payload text of the sample with the tags `lowerNoTags`. -/
def lowerNoText : String :=
  "\x7b\"configurationItemDiff\":\x7b\x7d,\"configurationItem\":\x7b\"resourceType\":\"AWS::EC2::SecurityGroup\",\"resourceId\":\"sg-123\",\"tags\":\x7b\"NotifyOnChange\":\"no\"\x7d\x7d\x7d"

/-- A recipient tag that is a sentence with an address somewhere inside. -/
def proseOwner : String := "nobody <x@y.zz> and others"

/-- Tags that ask for a notification to `proseOwner`. -/
def proseTags : List (String × JSVal) :=
  [("NotifyOnChange", .str "Yes"), ("OwnerDL", .str proseOwner)]

/-- The payload text of the sample with the tags `proseTags`. -/
def proseText : String :=
  "\x7b\"configurationItemDiff\":\x7b\x7d,\"configurationItem\":\x7b\"resourceType\":\"AWS::EC2::SecurityGroup\",\"resourceId\":\"sg-123\",\"tags\":\x7b\"NotifyOnChange\":\"Yes\",\"OwnerDL\":\"nobody <x@y.zz> and others\"\x7d\x7d\x7d"

/-- The security group `sg-123` without a `tags` mapping. -/
def untaggedItem : List (String × JSVal) :=
  [("resourceType", .str "AWS::EC2::SecurityGroup"), ("resourceId", .str "sg-123")]

/-- The payload text of a change of `untaggedItem`. -/
def untaggedText : String :=
  "\x7b\"configurationItemDiff\":\x7b\x7d,\"configurationItem\":\x7b\"resourceType\":\"AWS::EC2::SecurityGroup\",\"resourceId\":\"sg-123\"\x7d\x7d"

/-- The EC2 instance `i-1` with the tags of the sample. -/
def instanceItem : List (String × JSVal) :=
  [("resourceType", .str "AWS::EC2::Instance"), ("resourceId", .str "i-1"),
   ("tags", .obj sampleTags)]

/-- The payload text of a change of `instanceItem`. -/
def instanceText : String :=
  "\x7b\"configurationItemDiff\":\x7b\x7d,\"configurationItem\":\x7b\"resourceType\":\"AWS::EC2::Instance\",\"resourceId\":\"i-1\",\"tags\":\x7b\"NotifyOnChange\":\"Yes\",\"OwnerDL\":\"owner@example.com\",\"Name\":\"web-sg\"\x7d\x7d\x7d"

/-- The runtime of the worked examples: each payload text above with the value it
denotes, and the text `null`. -/
def sampleRuntime : Runtime :=
  tableRuntime
    [(sampleText, .obj (messageFields (sampleItem sampleTags))),
     (lowerNoText, .obj (messageFields (sampleItem lowerNoTags))),
     (proseText, .obj (messageFields (sampleItem proseTags))),
     (untaggedText, .obj (messageFields untaggedItem)),
     (instanceText, .obj (messageFields instanceItem)),
     ("null", .null)]

/-- The module as configured for the worked examples. -/
def sampleModule : ModuleState := ModuleState.mk "alerts@example.com"

/-- A send capability that accepts every request. -/
def sesOk : Ses := fun _ => none

/-- A send capability that rejects every request. -/
def sesDown : Ses := fun _ => some "Throttling"

/-! ## Shapes of the input the statements below speak about -/

/-- The envelope passes the gate of lines 23-29 with the payload `text`: the
first record is an object whose `Sns` is an object whose `Message` is the
non-empty string `text`. -/
def Delivers (event : Event) (text : String) : Prop :=
  ∃ fields sns rest, event.Records = some (.obj fields :: rest) ∧
    fields.lookup "Sns" = some (.obj sns) ∧
    sns.lookup "Message" = some (.str text) ∧ text ≠ ""

/-- The first record carries no payload: it has no `Sns` (absent or `null`), or
its `Sns` is an object without a `Message` (absent, `null` or the empty
string). -/
inductive LacksPayload : JSVal → Prop where
  | noSns (fields : List (String × JSVal)) :
      fields.lookup "Sns" = none → LacksPayload (.obj fields)
  | nullSns (fields : List (String × JSVal)) :
      fields.lookup "Sns" = some .null → LacksPayload (.obj fields)
  | noMessage (fields sns : List (String × JSVal)) :
      fields.lookup "Sns" = some (.obj sns) → sns.lookup "Message" = none →
      LacksPayload (.obj fields)
  | nullMessage (fields sns : List (String × JSVal)) :
      fields.lookup "Sns" = some (.obj sns) → sns.lookup "Message" = some .null →
      LacksPayload (.obj fields)
  | emptyMessage (fields sns : List (String × JSVal)) :
      fields.lookup "Sns" = some (.obj sns) → sns.lookup "Message" = some (.str "") →
      LacksPayload (.obj fields)

/-- The envelopes the gate of lines 23-29 is there to reject: no `Records`, an
empty `Records`, or a first record without payload. -/
def NoPayload (event : Event) : Prop :=
  event.Records = none ∨ event.Records = some [] ∨
    ∃ first rest, event.Records = some (first :: rest) ∧ LacksPayload first

/-- The parsed payload lacks `configurationItem` or `configurationItemDiff`, or
is not an object at all. -/
def LacksItemOrDiff (message : JSVal) : Prop :=
  (∀ fields, message ≠ .obj fields) ∨
    ∃ fields, message = .obj fields ∧
      (fields.lookup "configurationItem" = none ∨
        fields.lookup "configurationItemDiff" = none)

/-- The parsed message `{ fields }` is a security-group change: it has a truthy
`configurationItemDiff` and a `configurationItem` object `item` of the supported
resource type. These are the messages that pass the gates of lines 34-46. -/
structure SecurityGroupChange (fields item : List (String × JSVal)) (diff : JSVal) :
    Prop where
  hasDiff : fields.lookup "configurationItemDiff" = some diff
  diffTruthy : diff.truthy = true
  hasItem : fields.lookup "configurationItem" = some (.obj item)
  isSecurityGroup : item.lookup "resourceType" = some (.str securityGroupType)

/-- The tag mapping is a map from tag names to string values. -/
def StringValued (tags : List (String × JSVal)) : Prop :=
  ∀ p ∈ tags, ∃ s, p.2 = JSVal.str s

/-- The string value of a tag, if the tag is there. -/
def tagText (tags : List (String × JSVal)) (name : String) : Option String :=
  match tags.lookup name with
  | some (.str s) => some s
  | _ => none

/-- The NotifyOnChange values that switch notification off: the tag is absent
or is one of the strings `""`, `"No"`, `"False"`. -/
def NotifyOff (tags : List (String × JSVal)) : Prop :=
  tagText tags "NotifyOnChange" = none ∨ tagText tags "NotifyOnChange" = some "" ∨
    tagText tags "NotifyOnChange" = some "No" ∨ tagText tags "NotifyOnChange" = some "False"

/-- The identifiers named in the body, as the specification gives them: the
resource id, followed by the `Name` tag when it is present and non-empty. -/
def referenceIdentifiers (resourceId : String) (name : Option String) : List String :=
  match name with
  | some n => if n = "" then [resourceId] else [resourceId, n]
  | none => [resourceId]

/-- The send request as the specification gives it (section 4.2): one
recipient, the fixed subject wording, the body made of the identifiers joined
by a slash and the printed diff, and the configured sender. -/
def referenceRequest (fromAddress recipient resourceId : String) (name : Option String)
    (printedDiff : String) : EmailParams :=
  EmailParams.mk (Destination.mk [.str recipient])
    (Message.mk
      (Body.mk (Content.mk ("The security group "
        ++ "/".intercalate (referenceIdentifiers resourceId name)
        ++ " was changed.\n\nDetails:\n" ++ printedDiff)))
      (Content.mk ("Security Group " ++ resourceId ++ " Was Changed")))
    fromAddress

/-- The event passes every gate of `exports.handler`: the parsed message
`{ fields }` is a security-group change whose item has the string-valued tag
mapping `tags` and the resource id `resourceId`, NotifyOnChange does not switch
notification off, and the OwnerDL tag is the string `recipient`, which the test
of line 65 accepts. -/
structure PassesAllGates (fields item tags : List (String × JSVal)) (diff : JSVal)
    (resourceId recipient : String) : Prop where
  change : SecurityGroupChange fields item diff
  hasTags : item.lookup "tags" = some (.obj tags)
  stringTags : StringValued tags
  hasId : item.lookup "resourceId" = some (.str resourceId)
  notifyOn : ¬ NotifyOff tags
  hasRecipient : tagText tags "OwnerDL" = some recipient
  recipientPasses : Regex.test Regex.emailRegex recipient = true

/-- The shape of a run with respect to the send capability `ses`: either nothing
is sent and no success signal is given, or exactly one request is sent, the run
ends with the success signal when `ses` accepts that request, and ends in the
exception `new Error(err)` when `ses` reports `err` for it. -/
def SendShape (ses : Ses) (t : Trace) : Prop :=
  (t.sends = [] ∧ ¬ t.Succeeded) ∨
    ∃ req, t.sends = [req] ∧ (ses req = none → t.Succeeded) ∧
      ∀ err, ses req = some err → t.ending = .threw (.error err)

/-! ## Truthiness of the constructors -/

theorem truthy_undefined : JSVal.undefined.truthy = false := rfl

theorem truthy_null : JSVal.null.truthy = false := rfl

theorem truthy_str (s : String) : (JSVal.str s).truthy = (s != "") := rfl

theorem truthy_arr (items : List JSVal) : (JSVal.arr items).truthy = true := rfl

theorem truthy_obj (fields : List (String × JSVal)) : (JSVal.obj fields).truthy = true := rfl

theorem getProp_obj (fields : List (String × JSVal)) (name : String) :
    (JSVal.obj fields).getProp name = .ok ((fields.lookup name).getD .undefined) := rfl

/-! ## The runtime of the worked examples on its texts -/

set_option maxRecDepth 20000 in
theorem parse_sampleText :
    sampleRuntime.parse sampleText = some (.obj (messageFields (sampleItem sampleTags))) :=
  rfl

set_option maxRecDepth 20000 in
theorem parse_lowerNoText :
    sampleRuntime.parse lowerNoText = some (.obj (messageFields (sampleItem lowerNoTags))) :=
  rfl

set_option maxRecDepth 20000 in
theorem parse_proseText :
    sampleRuntime.parse proseText = some (.obj (messageFields (sampleItem proseTags))) :=
  rfl

set_option maxRecDepth 20000 in
theorem parse_untaggedText :
    sampleRuntime.parse untaggedText = some (.obj (messageFields untaggedItem)) :=
  rfl

set_option maxRecDepth 20000 in
theorem parse_instanceText :
    sampleRuntime.parse instanceText = some (.obj (messageFields instanceItem)) :=
  rfl

theorem delivers_envelope (text : String) (h : text ≠ "") : Delivers (envelope text) text :=
  ⟨_, _, _, rfl, rfl, rfl, h⟩

/-! ## What the envelope gate passes on -/

theorem handler_of_delivers (rt : Runtime) (m : ModuleState) (ses : Ses) (event : Event)
    (text : String) (h : Delivers event text) :
    handler rt m ses event =
      Trace.parsing text
        (match rt.parse text with
         | none => Trace.raise .parseError
         | some message => validateMessage rt m ses message) := by
  obtain ⟨fields, sns, rest, hr, hs, hm, hne⟩ := h
  simp [handler, hr, JSVal.getProp, hs, hm, Trace.eval, truthy_obj, truthy_str, hne,
    JSVal.toStr, JSVal.itemStr]

theorem validateMessage_of_change (rt : Runtime) (m : ModuleState) (ses : Ses)
    (fields item : List (String × JSVal)) (diff : JSVal)
    (h : SecurityGroupChange fields item diff) :
    validateMessage rt m ses (.obj fields) = notifyGate rt m ses (.obj fields) := by
  simp [validateMessage, truthy_obj, JSVal.getProp, readItem, h.hasDiff, h.diffTruthy,
    h.hasItem, h.isSecurityGroup, Trace.eval, JSVal.strictEqStr]

/-! ## The envelope gate (lines 22-29) -/

theorem handler_first_record (rt : Runtime) (m : ModuleState) (ses : Ses)
    (first : JSVal) (rest others : List JSVal) :
    handler rt m ses (Event.mk (some (first :: rest))) =
      handler rt m ses (Event.mk (some (first :: others))) := by
  simp [handler]

theorem handler_lacks_payload (rt : Runtime) (m : ModuleState) (ses : Ses)
    (first : JSVal) (rest : List JSVal) (h : LacksPayload first) :
    handler rt m ses (Event.mk (some (first :: rest))) = Trace.skip := by
  cases h with
  | noSns fields h1 => simp [handler, JSVal.getProp, h1, Trace.eval, JSVal.truthy]
  | nullSns fields h1 => simp [handler, JSVal.getProp, h1, Trace.eval, JSVal.truthy]
  | noMessage fields sns h1 h2 =>
    simp [handler, JSVal.getProp, h1, h2, Trace.eval, JSVal.truthy]
  | nullMessage fields sns h1 h2 =>
    simp [handler, JSVal.getProp, h1, h2, Trace.eval, JSVal.truthy]
  | emptyMessage fields sns h1 h2 =>
    simp [handler, JSVal.getProp, h1, h2, Trace.eval, JSVal.truthy]

/-- C9. An event with no `Records`, with an empty `Records`, or whose first
record has no `Sns` or no non-empty `Sns.Message` ends Skipped: the run is
exactly `context.done()` with no result, nothing is handed to `JSON.parse`
(whatever the runtime), nothing is logged and nothing is sent. Only the first
record decides: replacing the records after the first by any others leaves the
run unchanged. -/
theorem envelope_gate_skips (rt : Runtime) (m : ModuleState) (ses : Ses) (event : Event)
    (h : NoPayload event) :
    handler rt m ses event = Trace.mk [] [] [] (.done none) ∧
      ∀ first rest, event.Records = some (first :: rest) →
        ∀ others, handler rt m ses (Event.mk (some (first :: others))) =
          handler rt m ses event := by
  have key : handler rt m ses event = Trace.mk [] [] [] (.done none) := by
    rcases h with h | h | ⟨first, rest, hr, hl⟩
    · cases event; simp_all [handler, Trace.skip]
    · cases event; simp_all [handler, Trace.skip]
    · cases event
      simp only at hr
      subst hr
      exact handler_lacks_payload rt m ses first rest hl
  refine ⟨key, ?_⟩
  intro first rest hr others
  cases event
  simp only at hr
  subst hr
  exact handler_first_record rt m ses first others rest

/-- Witness of C9: a record whose `Sns.Message` is the empty string, followed by
a second record that does carry a payload. -/
theorem envelope_gate_skips_witness :
    handler sampleRuntime sampleModule sesOk
        (Event.mk (some [.obj [("Sns", .obj [("Message", .str "")])],
                         .obj [("Sns", .obj [("Message", .str "later")])]]))
      = Trace.mk [] [] [] (.done none) :=
  (envelope_gate_skips sampleRuntime sampleModule sesOk
    (Event.mk (some [.obj [("Sns", .obj [("Message", .str "")])],
                     .obj [("Sns", .obj [("Message", .str "later")])]]))
    (Or.inr (Or.inr ⟨_, _, rfl,
      LacksPayload.emptyMessage _ [("Message", .str "")] rfl rfl⟩))).1

/-! ## `JSON.parse` and the structure gate (lines 31-39) -/

/-- C4 (the code at the failing input). When the first record carries a
non-empty payload string that `JSON.parse` rejects, the handler does not end
Skipped: the SyntaxError of `JSON.parse` on line 32 is not caught, the
invocation ends in that exception and `context.done` is never called. Nothing
is logged and nothing is sent. -/
theorem parse_failure_throws (rt : Runtime) (m : ModuleState) (ses : Ses) (event : Event)
    (text : String) (h : Delivers event text) (hp : rt.parse text = none) :
    handler rt m ses event = Trace.mk [] [text] [] (.threw .parseError) := by
  rw [handler_of_delivers rt m ses event text h, hp]
  rfl

/-- Witness of C4: the payload `not json`. -/
theorem parse_failure_throws_witness :
    handler sampleRuntime sampleModule sesOk (envelope "not json")
      = Trace.mk [] ["not json"] [] (.threw .parseError) :=
  parse_failure_throws sampleRuntime sampleModule sesOk (envelope "not json")
    "not json" (delivers_envelope "not json" (by decide)) rfl

theorem validateMessage_lacks (rt : Runtime) (m : ModuleState) (ses : Ses)
    (message : JSVal) (h : LacksItemOrDiff message) :
    validateMessage rt m ses message = Trace.mk [invalidFormatLog] [] [] (.done none) := by
  rcases h with h | ⟨fields, rfl, h | h⟩
  · cases message with
    | obj fields => exact absurd rfl (h fields)
    | undefined => simp [validateMessage, JSVal.truthy, Trace.log, Trace.skip]
    | null => simp [validateMessage, JSVal.truthy, Trace.log, Trace.skip]
    | bool b =>
      cases b <;>
        simp [validateMessage, JSVal.truthy, Trace.log, Trace.skip, JSVal.getProp, Trace.eval]
    | num nonzero text =>
      cases nonzero <;>
        simp [validateMessage, JSVal.truthy, Trace.log, Trace.skip, JSVal.getProp, Trace.eval]
    | str s =>
      by_cases hs : s = "" <;>
        simp [validateMessage, JSVal.truthy, Trace.log, Trace.skip, JSVal.getProp,
          Trace.eval, hs]
    | arr items =>
      simp [validateMessage, JSVal.truthy, Trace.log, Trace.skip, JSVal.getProp, Trace.eval]
  · by_cases hd : ((fields.lookup "configurationItemDiff").getD .undefined).truthy = true <;>
      simp [validateMessage, truthy_obj, truthy_undefined, Trace.log, Trace.skip,
        JSVal.getProp, Trace.eval, h, hd]
  · simp [validateMessage, truthy_obj, truthy_undefined, Trace.log, Trace.skip,
      JSVal.getProp, Trace.eval, h]

/-- C8. When the payload parses but the parsed value has no `configurationItem`,
or no `configurationItemDiff`, or is not an object at all, the handler ends
Skipped at the structure gate: its only log line is the one of line 36 (no later
gate is evaluated), nothing is sent, and the run ends with `context.done()`
without a result. -/
theorem structure_gate_skips (rt : Runtime) (m : ModuleState) (ses : Ses) (event : Event)
    (text : String) (message : JSVal) (h : Delivers event text)
    (hp : rt.parse text = some message) (hm : LacksItemOrDiff message) :
    handler rt m ses event = Trace.mk [invalidFormatLog] [text] [] (.done none) := by
  rw [handler_of_delivers rt m ses event text h, hp]
  simp only [validateMessage_lacks rt m ses message hm]
  rfl

/-- Witness of C8: the payload `null`. -/
theorem structure_gate_skips_witness :
    handler sampleRuntime sampleModule sesOk (envelope "null")
      = Trace.mk [invalidFormatLog] ["null"] [] (.done none) :=
  structure_gate_skips sampleRuntime sampleModule sesOk
    (envelope "null") "null" .null (delivers_envelope "null" (by decide)) rfl
    (Or.inl (fun _ h => JSVal.noConfusion h))

/-! ## The resource-type gate (lines 41-46) -/

theorem strictEqStr_iff (v : JSVal) (lit : String) :
    v.strictEqStr lit = true ↔ v = .str lit := by
  cases v <;> simp [JSVal.strictEqStr]

theorem getProp_of_truthy (v : JSVal) (name : String) (h : v.truthy = true) :
    ∃ w, v.getProp name = .ok w := by
  cases v <;> simp_all [JSVal.getProp, JSVal.truthy]

/-- C7. When the payload parses to an object containing `configurationItem` and
`configurationItemDiff`, and `configurationItem.resourceType` is anything but
the string `AWS::EC2::SecurityGroup` (absent, another case, another type, not
a string), the handler ends Skipped: `context.done()` without a result and no
send request, whatever the tags of the item are. The run stops at the structure
gate or at the resource-type gate. -/
theorem resource_type_gate_skips (rt : Runtime) (m : ModuleState) (ses : Ses)
    (event : Event) (text : String) (fields : List (String × JSVal)) (item diff : JSVal)
    (h : Delivers event text) (hp : rt.parse text = some (.obj fields))
    (hi : fields.lookup "configurationItem" = some item)
    (hd : fields.lookup "configurationItemDiff" = some diff)
    (ht : item.getProp "resourceType" ≠ .ok (.str securityGroupType)) :
    (handler rt m ses event).Skipped ∧
      ((handler rt m ses event).logs = [invalidFormatLog] ∨
        (handler rt m ses event).logs = [unsupportedTypeLog]) := by
  rw [handler_of_delivers rt m ses event text h, hp]
  by_cases hdt : diff.truthy = true
  · by_cases hit : item.truthy = true
    · obtain ⟨w, hw⟩ := getProp_of_truthy item "resourceType" hit
      have hne : w.strictEqStr securityGroupType = false := by
        cases hs : w.strictEqStr securityGroupType
        · rfl
        · rw [strictEqStr_iff] at hs
          rw [hw, hs] at ht
          exact absurd rfl ht
      simp [validateMessage, truthy_obj, getProp_obj, hi, hd, hdt, hit, readItem, hw, hne,
        Trace.eval, Trace.Skipped, Trace.parsing, Trace.log, Trace.skip]
    · simp [validateMessage, truthy_obj, getProp_obj, hi, hd, hdt, hit, Trace.eval,
        Trace.Skipped, Trace.parsing, Trace.log, Trace.skip]
  · simp [validateMessage, truthy_obj, getProp_obj, hd, hdt, Trace.eval,
      Trace.Skipped, Trace.parsing, Trace.log, Trace.skip]

/-- Witness of C7: an EC2 instance whose tags ask for a notification and name a
valid recipient. -/
theorem resource_type_gate_skips_witness :
    (handler sampleRuntime sampleModule sesOk (envelope instanceText)).Skipped :=
  (resource_type_gate_skips sampleRuntime sampleModule sesOk (envelope instanceText)
    instanceText (messageFields instanceItem) (.obj instanceItem) (.obj [])
    (delivers_envelope instanceText (by decide)) parse_instanceText rfl rfl
    (by simp [instanceItem, getProp_obj, securityGroupType])).1

/-! ## The NotifyOnChange gate (lines 48-55) -/

theorem mem_of_lookup {β : Type} (l : List (String × β)) (k : String) (v : β)
    (h : l.lookup k = some v) : (k, v) ∈ l := by
  induction l with
  | nil => simp at h
  | cons p rest ih =>
    obtain ⟨k2, v2⟩ := p
    by_cases hk : k = k2
    · subst hk
      simp [List.lookup] at h
      simp [h]
    · have hne : (k == k2) = false := by simpa using hk
      simp [List.lookup, hne] at h
      exact List.mem_cons_of_mem _ (ih h)

theorem lookup_stringValued (tags : List (String × JSVal)) (hs : StringValued tags)
    (name : String) :
    tags.lookup name = none ∨ ∃ s, tags.lookup name = some (.str s) := by
  cases hl : tags.lookup name with
  | none => exact Or.inl rfl
  | some v =>
    obtain ⟨s, hv⟩ := hs _ (mem_of_lookup tags name v hl)
    exact Or.inr ⟨s, by simpa using hv⟩

theorem readTag_of_item (fields item tags : List (String × JSVal)) (name : String)
    (hi : fields.lookup "configurationItem" = some (.obj item))
    (ht : item.lookup "tags" = some (.obj tags)) :
    readTag (.obj fields) name = .ok ((tags.lookup name).getD .undefined) := by
  simp [readTag, JSVal.getProp, hi, ht]

theorem readItem_of_item (fields item : List (String × JSVal)) (name : String)
    (hi : fields.lookup "configurationItem" = some (.obj item)) :
    readItem (.obj fields) name = .ok ((item.lookup name).getD .undefined) := by
  simp [readItem, JSVal.getProp, hi]

/-- C5 (the code at the failing input). A security-group change whose
`configurationItem` has no `tags` mapping does not end Skipped: the read
`message.configurationItem.tags["NotifyOnChange"]` on line 49 throws a
TypeError, the invocation ends in that exception and `context.done` is never
called. -/
theorem missing_tags_throws (rt : Runtime) (m : ModuleState) (ses : Ses) (event : Event)
    (text : String) (fields item : List (String × JSVal)) (diff : JSVal)
    (h : Delivers event text) (hp : rt.parse text = some (.obj fields))
    (hc : SecurityGroupChange fields item diff) (ht : item.lookup "tags" = none) :
    handler rt m ses event = Trace.mk [] [text] [] (.threw .typeError) := by
  rw [handler_of_delivers rt m ses event text h, hp]
  simp only [validateMessage_of_change rt m ses fields item diff hc]
  simp [notifyGate, readTag, JSVal.getProp, hc.hasItem, ht, Trace.eval, Trace.raise,
    Trace.parsing]

/-- Witness of C5: the sample security group without a `tags` mapping. -/
theorem missing_tags_throws_witness :
    handler sampleRuntime sampleModule sesOk (envelope untaggedText)
      = Trace.mk [] [untaggedText] [] (.threw .typeError) :=
  missing_tags_throws sampleRuntime sampleModule sesOk (envelope untaggedText)
    untaggedText (messageFields untaggedItem) untaggedItem (.obj [])
    (delivers_envelope untaggedText (by decide)) parse_untaggedText ⟨rfl, rfl, rfl, rfl⟩ rfl

theorem tagText_eq_some (tags : List (String × JSVal)) (name s : String)
    (h : tagText tags name = some s) : tags.lookup name = some (.str s) := by
  unfold tagText at h
  split at h
  · rename_i t heq
    simp only [Option.some.injEq] at h
    rw [heq, h]
  · exact absurd h (by simp)

theorem tagText_of_lookup_none (tags : List (String × JSVal)) (name : String)
    (h : tags.lookup name = none) : tagText tags name = none := by
  simp [tagText, h]

theorem tagText_of_lookup_str (tags : List (String × JSVal)) (name s : String)
    (h : tags.lookup name = some (.str s)) : tagText tags name = some s := by
  simp [tagText, h]

theorem notifyGate_off (rt : Runtime) (m : ModuleState) (ses : Ses)
    (fields item tags : List (String × JSVal))
    (hi : fields.lookup "configurationItem" = some (.obj item))
    (ht : item.lookup "tags" = some (.obj tags)) (hs : StringValued tags)
    (hoff : NotifyOff tags) :
    notifyGate rt m ses (.obj fields) = Trace.log notifyDisabledLog Trace.skip := by
  unfold notifyGate
  rw [readTag_of_item fields item tags "NotifyOnChange" hi ht]
  rcases lookup_stringValued tags hs "NotifyOnChange" with hl | ⟨s, hl⟩
  · simp [hl, Trace.eval, truthy_undefined]
  · have hts := tagText_of_lookup_str tags "NotifyOnChange" s hl
    unfold NotifyOff at hoff
    rw [hts] at hoff
    rcases hoff with h | h | h | h
    · exact absurd h (by simp)
    · simp only [Option.some.injEq] at h
      subst h
      simp [hl, Trace.eval, truthy_str]
    · simp only [Option.some.injEq] at h
      subst h
      simp [hl, Trace.eval, truthy_str, JSVal.looseEqStr]
    · simp only [Option.some.injEq] at h
      subst h
      simp [hl, Trace.eval, truthy_str, JSVal.looseEqStr]

theorem notifyGate_on (rt : Runtime) (m : ModuleState) (ses : Ses)
    (fields item tags : List (String × JSVal))
    (hi : fields.lookup "configurationItem" = some (.obj item))
    (ht : item.lookup "tags" = some (.obj tags)) (hs : StringValued tags)
    (hon : ¬ NotifyOff tags) :
    notifyGate rt m ses (.obj fields) = ownerGate rt m ses (.obj fields) := by
  unfold notifyGate
  rw [readTag_of_item fields item tags "NotifyOnChange" hi ht]
  rcases lookup_stringValued tags hs "NotifyOnChange" with hl | ⟨s, hl⟩
  · exact absurd (Or.inl (tagText_of_lookup_none tags "NotifyOnChange" hl)) hon
  · have hts := tagText_of_lookup_str tags "NotifyOnChange" s hl
    unfold NotifyOff at hon
    rw [hts] at hon
    simp only [Option.some.injEq, not_or] at hon
    obtain ⟨-, h1, h2, h3⟩ := hon
    simp [hl, Trace.eval, truthy_str, JSVal.looseEqStr, h1, h2, h3]

/-! ### The log lines tell the gates apart -/

theorem eval_logs_ne {α : Type} (x : Except JSError α) (k : α → Trace) (line : String)
    (h : ∀ a, x = .ok a → (k a).logs ≠ [line]) : (Trace.eval x k).logs ≠ [line] := by
  cases x with
  | ok a => exact h a rfl
  | error e => simp [Trace.eval, Trace.raise]

theorem concat_ok (text : String) (v : JSVal) (line : String)
    (h : JSVal.concat text v = .ok line) : ∃ s, line = text ++ s := by
  unfold JSVal.concat at h
  split at h
  · rename_i s _
    simp only [Except.ok.injEq] at h
    exact ⟨s, h.symm⟩
  · exact absurd h (by simp)

theorem owner_line_ne (s : String) : "Owner: " ++ s ≠ notifyDisabledLog := by
  intro h
  have h2 := congrArg String.data h
  simp [notifyDisabledLog] at h2

theorem notify_logs_ne (rt : Runtime) (m : ModuleState) (ses : Ses) (message : JSVal)
    (owner ownerDL securityGroupId securityGroupName : JSVal) :
    (notify rt m ses message owner ownerDL securityGroupId securityGroupName).logs
      ≠ [notifyDisabledLog] := by
  unfold notify
  apply eval_logs_ne
  intro line hline
  obtain ⟨s, rfl⟩ := concat_ok _ _ _ hline
  intro h
  simp only [Trace.log, List.cons.injEq] at h
  exact owner_line_ne s h.1

theorem ownerGate_logs_ne (rt : Runtime) (m : ModuleState) (ses : Ses) (message : JSVal) :
    (ownerGate rt m ses message).logs ≠ [notifyDisabledLog] := by
  have hlog : (Trace.log ownerInvalidLog Trace.skip).logs ≠ [notifyDisabledLog] := by
    simp [Trace.log, Trace.skip, ownerInvalidLog, notifyDisabledLog]
  unfold ownerGate
  apply eval_logs_ne; intro owner _
  apply eval_logs_ne; intro ownerDL _
  apply eval_logs_ne; intro securityGroupId _
  apply eval_logs_ne; intro securityGroupName _
  split
  · exact hlog
  · apply eval_logs_ne; intro text _
    split
    · exact hlog
    · exact notify_logs_ne rt m ses message owner ownerDL securityGroupId securityGroupName

/-- C3. For an event that passes the envelope, structure and resource-type gates
and whose tags map names to strings: the run is the rejection of the
NotifyOnChange gate (the log line of line 52, `context.done()` without a
result, no send) if and only if NotifyOnChange is absent or is one of `""`,
`"No"`, `"False"`; for every other value, whatever its case or meaning, the
handler goes on with the OwnerDL gate. -/
theorem notify_gate_rejects_iff (rt : Runtime) (m : ModuleState) (ses : Ses)
    (event : Event) (text : String) (fields item tags : List (String × JSVal))
    (diff : JSVal) (h : Delivers event text) (hp : rt.parse text = some (.obj fields))
    (hc : SecurityGroupChange fields item diff)
    (ht : item.lookup "tags" = some (.obj tags)) (hs : StringValued tags) :
    (handler rt m ses event = Trace.mk [notifyDisabledLog] [text] [] (.done none)
        ↔ NotifyOff tags) ∧
      (¬ NotifyOff tags →
        handler rt m ses event = Trace.parsing text (ownerGate rt m ses (.obj fields))) := by
  have hrun : handler rt m ses event = Trace.parsing text (notifyGate rt m ses (.obj fields)) := by
    rw [handler_of_delivers rt m ses event text h, hp]
    simp only [validateMessage_of_change rt m ses fields item diff hc]
  have hon : ¬ NotifyOff tags →
      handler rt m ses event = Trace.parsing text (ownerGate rt m ses (.obj fields)) := by
    intro hn
    rw [hrun, notifyGate_on rt m ses fields item tags hc.hasItem ht hs hn]
  refine ⟨⟨?_, ?_⟩, hon⟩
  · intro hrej
    by_contra hn
    rw [hon hn] at hrej
    have hlogs := congrArg Trace.logs hrej
    exact ownerGate_logs_ne rt m ses (.obj fields) hlogs
  · intro hoff
    rw [hrun, notifyGate_off rt m ses fields item tags hc.hasItem ht hs hoff]
    rfl

theorem stringValued_lowerNoTags : StringValued lowerNoTags := by
  intro p hp
  simp only [lowerNoTags, List.mem_singleton] at hp
  subst hp
  exact ⟨_, rfl⟩

/-- Witness of C3: NotifyOnChange is the lower-case `no`, and the handler goes
on to the OwnerDL gate. -/
theorem notify_gate_rejects_iff_witness :
    handler sampleRuntime sampleModule sesOk (envelope lowerNoText) =
      Trace.parsing lowerNoText
        (ownerGate sampleRuntime sampleModule sesOk
          (.obj (messageFields (sampleItem lowerNoTags)))) :=
  (notify_gate_rejects_iff sampleRuntime sampleModule sesOk (envelope lowerNoText)
    lowerNoText (messageFields (sampleItem lowerNoTags)) (sampleItem lowerNoTags)
    lowerNoTags (.obj []) (delivers_envelope lowerNoText (by decide)) parse_lowerNoText
    ⟨rfl, rfl, rfl, rfl⟩ rfl stringValued_lowerNoTags).2
    (by simp [NotifyOff, tagText, lowerNoTags])

/-! ## The OwnerDL gate and the send (lines 57-112) -/

theorem sendEmail_sends (m : ModuleState) (ses : Ses) (toAddress : JSVal)
    (subject message : String) (ending : Ending) :
    (sendEmail m ses toAddress subject message (Trace.mk [] [] [] ending)).sends =
      [EmailParams.mk (Destination.mk [toAddress])
        (Message.mk (Body.mk (Content.mk message)) (Content.mk subject)) m.fromAddress] := by
  simp only [sendEmail, Trace.sending]
  split <;> simp [Trace.log, Trace.raise]

theorem test_empty : Regex.test Regex.emailRegex "" = false := by decide

theorem joinItems_one (sep a : String) : JSVal.joinItems sep [.str a] = .ok a := rfl

theorem joinItems_two (sep a b : String) :
    JSVal.joinItems sep [.str a, .str b] = .ok (a ++ sep ++ b) := rfl

theorem ownerGate_of_valid (rt : Runtime) (m : ModuleState) (ses : Ses)
    (fields item tags : List (String × JSVal)) (diff : JSVal) (resourceId recipient : String)
    (hv : PassesAllGates fields item tags diff resourceId recipient) :
    (ownerGate rt m ses (.obj fields)).sends =
      [referenceRequest m.fromAddress recipient resourceId (tagText tags "Name")
        (rt.stringify diff 2)] := by
  have hrec := tagText_eq_some tags "OwnerDL" recipient hv.hasRecipient
  have hne : recipient ≠ "" := by
    intro h0
    have ht := hv.recipientPasses
    rw [h0, test_empty] at ht
    exact absurd ht (by simp)
  have hpass := hv.recipientPasses
  have hid := hv.hasId
  have hdiff := hv.change.hasDiff
  unfold ownerGate
  rw [readTag_of_item fields item tags "Owner" hv.change.hasItem hv.hasTags,
    readTag_of_item fields item tags "OwnerDL" hv.change.hasItem hv.hasTags,
    readTag_of_item fields item tags "Name" hv.change.hasItem hv.hasTags,
    readItem_of_item fields item "resourceId" hv.change.hasItem]
  rcases lookup_stringValued tags hv.stringTags "Owner" with ho | ⟨o, ho⟩ <;>
    rcases lookup_stringValued tags hv.stringTags "Name" with hn | ⟨n, hn⟩
  · simp [ho, hn, hrec, hid, hdiff, hne, hpass, Trace.eval, truthy_str, truthy_undefined,
      JSVal.strictEqStr, JSVal.toStr, JSVal.itemStr, notify, JSVal.concat, sgIdentifiers,
      joinItems_one, joinItems_two, getProp_obj, Trace.log, sendEmail_sends, referenceRequest,
      referenceIdentifiers, tagText, String.intercalate, String.intercalate.go]
  · by_cases hempty : n = "" <;>
    simp [ho, hn, hrec, hid, hdiff, hne, hpass, Trace.eval, truthy_str, truthy_undefined,
      JSVal.strictEqStr, JSVal.toStr, JSVal.itemStr, notify, JSVal.concat, sgIdentifiers,
      joinItems_one, joinItems_two, getProp_obj, Trace.log, sendEmail_sends, referenceRequest,
      referenceIdentifiers, tagText, String.intercalate, String.intercalate.go,
      JSVal.looseEqStr, hempty]
  · simp [ho, hn, hrec, hid, hdiff, hne, hpass, Trace.eval, truthy_str, truthy_undefined,
      JSVal.strictEqStr, JSVal.toStr, JSVal.itemStr, notify, JSVal.concat, sgIdentifiers,
      joinItems_one, joinItems_two, getProp_obj, Trace.log, sendEmail_sends, referenceRequest,
      referenceIdentifiers, tagText, String.intercalate, String.intercalate.go]
  · by_cases hempty : n = "" <;>
    simp [ho, hn, hrec, hid, hdiff, hne, hpass, Trace.eval, truthy_str, truthy_undefined,
      JSVal.strictEqStr, JSVal.toStr, JSVal.itemStr, notify, JSVal.concat, sgIdentifiers,
      joinItems_one, joinItems_two, getProp_obj, Trace.log, sendEmail_sends, referenceRequest,
      referenceIdentifiers, tagText, String.intercalate, String.intercalate.go,
      JSVal.looseEqStr, hempty]

theorem stringValued_sampleTags : StringValued sampleTags := by
  intro p hp
  simp only [sampleTags, List.mem_cons, List.mem_singleton, List.not_mem_nil, or_false] at hp
  rcases hp with rfl | rfl | rfl <;> exact ⟨_, rfl⟩

theorem stringValued_proseTags : StringValued proseTags := by
  intro p hp
  simp only [proseTags, List.mem_cons, List.mem_singleton, List.not_mem_nil, or_false] at hp
  rcases hp with rfl | rfl <;> exact ⟨_, rfl⟩

/-- C1. For an event that passes every gate (a first record with a non-empty
payload that parses to a security-group change, a string-valued tag mapping in
which NotifyOnChange does not switch notification off and OwnerDL is accepted
by the test of line 65), exactly one send request is issued and it is the
reference request of the specification: the one recipient is the OwnerDL value
unchanged, the subject is `Security Group <resourceId> Was Changed`, the sender
is the configured `fromAddress`, and the body is `The security group `, the
identifiers joined by `/`, ` was changed.`, a blank line, `Details:` and the
diff as `JSON.stringify(diff, null, 2)` prints it, where the identifiers are the
resource id followed by the `Name` tag exactly when that tag is present and not
empty. -/
theorem valid_event_sends_reference (rt : Runtime) (m : ModuleState) (ses : Ses)
    (event : Event) (text : String) (fields item tags : List (String × JSVal))
    (diff : JSVal) (resourceId recipient : String)
    (h : Delivers event text) (hp : rt.parse text = some (.obj fields))
    (hv : PassesAllGates fields item tags diff resourceId recipient) :
    (handler rt m ses event).sends =
      [referenceRequest m.fromAddress recipient resourceId (tagText tags "Name")
        (rt.stringify diff 2)] := by
  rw [handler_of_delivers rt m ses event text h, hp]
  simp only [validateMessage_of_change rt m ses fields item diff hv.change]
  rw [notifyGate_on rt m ses fields item tags hv.change.hasItem hv.hasTags hv.stringTags
    hv.notifyOn]
  exact ownerGate_of_valid rt m ses fields item tags diff resourceId recipient hv

/-- Witness of C1: resource id `sg-123`, Name `web-sg`, OwnerDL
`owner@example.com`. -/
theorem valid_event_sends_reference_witness :
    (handler sampleRuntime sampleModule sesOk (envelope sampleText)).sends =
      [EmailParams.mk (Destination.mk [.str "owner@example.com"])
        (Message.mk
          (Body.mk (Content.mk
            "The security group sg-123/web-sg was changed.\n\nDetails:\n\x7b\x7d"))
          (Content.mk "Security Group sg-123 Was Changed"))
        "alerts@example.com"] :=
  valid_event_sends_reference sampleRuntime sampleModule sesOk (envelope sampleText)
    sampleText (messageFields (sampleItem sampleTags)) (sampleItem sampleTags) sampleTags
    (.obj []) "sg-123" "owner@example.com" (delivers_envelope sampleText (by decide))
    parse_sampleText
    ⟨⟨rfl, rfl, rfl, rfl⟩, rfl, stringValued_sampleTags, rfl,
      by simp [NotifyOff, tagText, sampleTags], rfl, by decide⟩

/-- C2 (the code at the failing input). The OwnerDL value
`nobody <x@y.zz> and others` is not, as a whole string, an address of the form
local part, `@`, domain labels, `.`, top-level domain; yet the handler does not
end Skipped: because the pattern of line 64 has no anchors, `test` finds `x@y.zz`
inside the value, and the handler sends one request whose only recipient is the
whole value and reports success. -/
theorem prose_recipient_is_sent :
    Regex.fullMatch Regex.emailRegex proseOwner = false ∧
      (handler sampleRuntime sampleModule sesOk (envelope proseText)).sends =
        [referenceRequest "alerts@example.com" proseOwner "sg-123" none "\x7b\x7d"] ∧
      (handler sampleRuntime sampleModule sesOk (envelope proseText)).Succeeded := by
  have hrun : handler sampleRuntime sampleModule sesOk (envelope proseText) =
      Trace.parsing proseText
        (ownerGate sampleRuntime sampleModule sesOk
          (.obj (messageFields (sampleItem proseTags)))) := by
    rw [handler_of_delivers sampleRuntime sampleModule sesOk (envelope proseText) proseText
      (delivers_envelope proseText (by decide)), parse_proseText]
    rfl
  refine ⟨by decide, ?_, ?_⟩
  · rw [hrun]
    exact ownerGate_of_valid sampleRuntime sampleModule sesOk
      (messageFields (sampleItem proseTags)) (sampleItem proseTags) proseTags (.obj [])
      "sg-123" proseOwner
      ⟨⟨rfl, rfl, rfl, rfl⟩, rfl, stringValued_proseTags, rfl,
        by simp [NotifyOff, tagText, proseTags], rfl, by decide⟩
  · rw [hrun]
    rfl

/-! ## Completion (lines 89-92 and 114-124) -/

theorem shape_of_quiet (ses : Ses) (t : Trace) (hs : t.sends = [])
    (he : t.ending ≠ .done (some Trace.successResult)) : SendShape ses t :=
  Or.inl ⟨hs, he⟩

theorem shape_skip (ses : Ses) : SendShape ses Trace.skip :=
  shape_of_quiet ses _ rfl (by simp [Trace.skip])

theorem shape_raise (ses : Ses) (e : JSError) : SendShape ses (Trace.raise e) :=
  shape_of_quiet ses _ rfl (by simp [Trace.raise])

theorem shape_log (ses : Ses) (line : String) (t : Trace) (h : SendShape ses t) :
    SendShape ses (Trace.log line t) := h

theorem shape_parsing (ses : Ses) (text : String) (t : Trace) (h : SendShape ses t) :
    SendShape ses (Trace.parsing text t) := h

theorem shape_eval {α : Type} (ses : Ses) (x : Except JSError α) (k : α → Trace)
    (h : ∀ a, SendShape ses (k a)) : SendShape ses (Trace.eval x k) := by
  cases x with
  | ok a => exact h a
  | error e => exact shape_raise ses e

theorem shape_sendEmail (m : ModuleState) (ses : Ses) (toAddress : JSVal)
    (subject message : String) :
    SendShape ses (sendEmail m ses toAddress subject message
      (Trace.mk [] [] [] (.done (some Trace.successResult)))) := by
  refine Or.inr ⟨_, sendEmail_sends m ses toAddress subject message _, ?_, ?_⟩
  · intro hok
    simp [sendEmail, hok, Trace.sending, Trace.log, Trace.Succeeded]
  · intro err herr
    simp [sendEmail, herr, Trace.sending, Trace.log, Trace.raise]

theorem shape_notify (rt : Runtime) (m : ModuleState) (ses : Ses) (message : JSVal)
    (owner ownerDL securityGroupId securityGroupName : JSVal) :
    SendShape ses (notify rt m ses message owner ownerDL securityGroupId securityGroupName) := by
  unfold notify
  refine shape_eval ses _ _ fun _ => shape_log ses _ _ ?_
  refine shape_eval ses _ _ fun _ => shape_log ses _ _ ?_
  refine shape_eval ses _ _ fun _ => shape_log ses _ _ ?_
  refine shape_eval ses _ _ fun _ => ?_
  refine shape_eval ses _ _ fun _ => ?_
  refine shape_eval ses _ _ fun _ => ?_
  refine shape_eval ses _ _ fun _ => ?_
  exact shape_log ses _ _ (shape_sendEmail m ses _ _ _)

theorem shape_ownerGate (rt : Runtime) (m : ModuleState) (ses : Ses) (message : JSVal) :
    SendShape ses (ownerGate rt m ses message) := by
  unfold ownerGate
  refine shape_eval ses _ _ fun _ => ?_
  refine shape_eval ses _ _ fun _ => ?_
  refine shape_eval ses _ _ fun _ => ?_
  refine shape_eval ses _ _ fun _ => ?_
  split
  · exact shape_log ses _ _ (shape_skip ses)
  · refine shape_eval ses _ _ fun _ => ?_
    split
    · exact shape_log ses _ _ (shape_skip ses)
    · exact shape_notify rt m ses _ _ _ _ _

theorem shape_notifyGate (rt : Runtime) (m : ModuleState) (ses : Ses) (message : JSVal) :
    SendShape ses (notifyGate rt m ses message) := by
  unfold notifyGate
  refine shape_eval ses _ _ fun _ => ?_
  split
  · exact shape_log ses _ _ (shape_skip ses)
  · refine shape_eval ses _ _ fun _ => ?_
    split
    · exact shape_log ses _ _ (shape_skip ses)
    · refine shape_eval ses _ _ fun _ => ?_
      split
      · exact shape_log ses _ _ (shape_skip ses)
      · exact shape_ownerGate rt m ses message

theorem shape_validateMessage (rt : Runtime) (m : ModuleState) (ses : Ses)
    (message : JSVal) : SendShape ses (validateMessage rt m ses message) := by
  unfold validateMessage
  split
  · exact shape_log ses _ _ (shape_skip ses)
  · refine shape_eval ses _ _ fun _ => ?_
    split
    · exact shape_log ses _ _ (shape_skip ses)
    · refine shape_eval ses _ _ fun _ => ?_
      split
      · exact shape_log ses _ _ (shape_skip ses)
      · refine shape_eval ses _ _ fun _ => ?_
        split
        · exact shape_log ses _ _ (shape_skip ses)
        · exact shape_notifyGate rt m ses message

theorem shape_handler (rt : Runtime) (m : ModuleState) (ses : Ses) (event : Event) :
    SendShape ses (handler rt m ses event) := by
  unfold handler
  split
  · exact shape_skip ses
  · exact shape_skip ses
  · refine shape_eval ses _ _ fun _ => ?_
    split
    · exact shape_skip ses
    · refine shape_eval ses _ _ fun _ => ?_
      split
      · exact shape_skip ses
      · refine shape_eval ses _ _ fun _ => shape_parsing ses _ _ ?_
        split
        · exact shape_raise ses _
        · exact shape_validateMessage rt m ses _

/-- C6. For an event that reaches the send: exactly one request is handed to
`ses.sendEmail` (a single attempt, no retry); the success signal
`context.done(null, { success: true })` ends the run if and only if the send
capability reports no error for that request; and if it reports an error, the
run ends in the exception `new Error(err)` thrown by `sendEmail`, so the
completion callback is not run and no success signal is given. -/
theorem success_iff_send_accepted (rt : Runtime) (m : ModuleState) (ses : Ses)
    (event : Event) (h : (handler rt m ses event).sends ≠ []) :
    ∃ req, (handler rt m ses event).sends = [req] ∧
      ((handler rt m ses event).Succeeded ↔ ses req = none) ∧
      ∀ err, ses req = some err →
        (handler rt m ses event).ending = .threw (.error err) ∧
          ¬ (handler rt m ses event).Succeeded := by
  rcases shape_handler rt m ses event with ⟨hs, -⟩ | ⟨req, hs, hok, herr⟩
  · exact absurd hs h
  · refine ⟨req, hs, ⟨?_, hok⟩, ?_⟩
    · intro hsucc
      cases hreq : ses req with
      | none => rfl
      | some err =>
        have hthrew := herr err hreq
        unfold Trace.Succeeded at hsucc
        rw [hthrew] at hsucc
        exact absurd hsucc (by simp)
    · intro err hreq
      refine ⟨herr err hreq, ?_⟩
      intro hsucc
      unfold Trace.Succeeded at hsucc
      rw [herr err hreq] at hsucc
      exact absurd hsucc (by simp)

set_option maxRecDepth 20000 in
theorem sample_sends_when_down :
    (handler sampleRuntime sampleModule sesDown (envelope sampleText)).sends ≠ [] := by
  rw [handler_of_delivers sampleRuntime sampleModule sesDown (envelope sampleText) sampleText
    (delivers_envelope sampleText (by decide)), parse_sampleText]
  simp [Trace.parsing, validateMessage_of_change sampleRuntime sampleModule sesDown
    (messageFields (sampleItem sampleTags)) (sampleItem sampleTags) (.obj [])
    ⟨rfl, rfl, rfl, rfl⟩,
    notifyGate_on sampleRuntime sampleModule sesDown (messageFields (sampleItem sampleTags))
      (sampleItem sampleTags) sampleTags rfl rfl stringValued_sampleTags
      (by simp [NotifyOff, tagText, sampleTags]),
    ownerGate_of_valid sampleRuntime sampleModule sesDown
      (messageFields (sampleItem sampleTags)) (sampleItem sampleTags) sampleTags (.obj [])
      "sg-123" "owner@example.com"
      ⟨⟨rfl, rfl, rfl, rfl⟩, rfl, stringValued_sampleTags, rfl,
        by simp [NotifyOff, tagText, sampleTags], rfl, by decide⟩]

/-- Witness of C6: the sample event with a send capability that reports an
error. -/
theorem success_iff_send_accepted_witness :
    ∃ req, (handler sampleRuntime sampleModule sesDown (envelope sampleText)).sends = [req] ∧
      ((handler sampleRuntime sampleModule sesDown (envelope sampleText)).Succeeded
        ↔ sesDown req = none) ∧
      ∀ err, sesDown req = some err →
        (handler sampleRuntime sampleModule sesDown (envelope sampleText)).ending
            = .threw (.error err) ∧
          ¬ (handler sampleRuntime sampleModule sesDown (envelope sampleText)).Succeeded :=
  success_iff_send_accepted sampleRuntime sampleModule sesDown (envelope sampleText)
    sample_sends_when_down

/-! ## Repeated invocations -/

theorem eval_sends_congr {α : Type} (x : Except JSError α) (k k2 : α → Trace)
    (h : ∀ a, (k a).sends = (k2 a).sends) :
    (Trace.eval x k).sends = (Trace.eval x k2).sends := by
  cases x with
  | ok a => exact h a
  | error e => rfl

theorem log_sends_congr (line : String) (t t2 : Trace) (h : t.sends = t2.sends) :
    (Trace.log line t).sends = (Trace.log line t2).sends := h

theorem parsing_sends_congr (text : String) (t t2 : Trace) (h : t.sends = t2.sends) :
    (Trace.parsing text t).sends = (Trace.parsing text t2).sends := h

theorem ite_sends_congr (c : Prop) [Decidable c] (a a2 b b2 : Trace)
    (ha : a.sends = a2.sends) (hb : b.sends = b2.sends) :
    (if c then a else b).sends = (if c then a2 else b2).sends := by
  split
  · exact ha
  · exact hb

theorem notify_sends_congr (rt : Runtime) (m : ModuleState) (ses ses2 : Ses) (message : JSVal)
    (owner ownerDL securityGroupId securityGroupName : JSVal) :
    (notify rt m ses message owner ownerDL securityGroupId securityGroupName).sends =
      (notify rt m ses2 message owner ownerDL securityGroupId securityGroupName).sends := by
  unfold notify
  refine eval_sends_congr _ _ _ fun _ => log_sends_congr _ _ _ ?_
  refine eval_sends_congr _ _ _ fun _ => log_sends_congr _ _ _ ?_
  refine eval_sends_congr _ _ _ fun _ => log_sends_congr _ _ _ ?_
  refine eval_sends_congr _ _ _ fun _ => ?_
  refine eval_sends_congr _ _ _ fun _ => ?_
  refine eval_sends_congr _ _ _ fun _ => ?_
  refine eval_sends_congr _ _ _ fun _ => ?_
  refine log_sends_congr _ _ _ ?_
  rw [sendEmail_sends, sendEmail_sends]

theorem ownerGate_sends_congr (rt : Runtime) (m : ModuleState) (ses ses2 : Ses)
    (message : JSVal) :
    (ownerGate rt m ses message).sends = (ownerGate rt m ses2 message).sends := by
  unfold ownerGate
  refine eval_sends_congr _ _ _ fun _ => ?_
  refine eval_sends_congr _ _ _ fun _ => ?_
  refine eval_sends_congr _ _ _ fun _ => ?_
  refine eval_sends_congr _ _ _ fun _ => ?_
  refine ite_sends_congr _ _ _ _ _ rfl ?_
  refine eval_sends_congr _ _ _ fun _ => ?_
  exact ite_sends_congr _ _ _ _ _ rfl (notify_sends_congr rt m ses ses2 _ _ _ _ _)

theorem notifyGate_sends_congr (rt : Runtime) (m : ModuleState) (ses ses2 : Ses)
    (message : JSVal) :
    (notifyGate rt m ses message).sends = (notifyGate rt m ses2 message).sends := by
  unfold notifyGate
  refine eval_sends_congr _ _ _ fun _ => ?_
  refine ite_sends_congr _ _ _ _ _ rfl ?_
  refine eval_sends_congr _ _ _ fun _ => ?_
  refine ite_sends_congr _ _ _ _ _ rfl ?_
  refine eval_sends_congr _ _ _ fun _ => ?_
  exact ite_sends_congr _ _ _ _ _ rfl (ownerGate_sends_congr rt m ses ses2 message)

theorem validateMessage_sends_congr (rt : Runtime) (m : ModuleState) (ses ses2 : Ses)
    (message : JSVal) :
    (validateMessage rt m ses message).sends = (validateMessage rt m ses2 message).sends := by
  unfold validateMessage
  refine ite_sends_congr _ _ _ _ _ rfl ?_
  refine eval_sends_congr _ _ _ fun _ => ?_
  refine ite_sends_congr _ _ _ _ _ rfl ?_
  refine eval_sends_congr _ _ _ fun _ => ?_
  refine ite_sends_congr _ _ _ _ _ rfl ?_
  refine eval_sends_congr _ _ _ fun _ => ?_
  exact ite_sends_congr _ _ _ _ _ rfl (notifyGate_sends_congr rt m ses ses2 message)

theorem handler_sends_congr (rt : Runtime) (m : ModuleState) (ses ses2 : Ses)
    (event : Event) :
    (handler rt m ses event).sends = (handler rt m ses2 event).sends := by
  unfold handler
  split
  · rfl
  · rfl
  · refine eval_sends_congr _ _ _ fun _ => ?_
    refine ite_sends_congr _ _ _ _ _ rfl ?_
    refine eval_sends_congr _ _ _ fun _ => ?_
    refine ite_sends_congr _ _ _ _ _ rfl ?_
    refine eval_sends_congr _ _ _ fun _ => parsing_sends_congr _ _ _ ?_
    split
    · rfl
    · exact validateMessage_sends_congr rt m ses ses2 _

/-! ### What the steps do to the module state -/

theorem step_eval_eq {α : Type} (x : Except JSError α) (k : α → Step) (t : α → Trace)
    (m : ModuleState) (h : ∀ a, k a m = (m, t a)) :
    Step.eval x k m = (m, Trace.eval x t) := by
  cases x with
  | ok a => exact h a
  | error e => rfl

theorem step_log_eq (line : String) (rest : Step) (t : Trace) (m : ModuleState)
    (h : rest m = (m, t)) : Step.log line rest m = (m, Trace.log line t) := by
  simp [Step.log, h]

theorem step_parsing_eq (text : String) (rest : Step) (t : Trace) (m : ModuleState)
    (h : rest m = (m, t)) : Step.parsing text rest m = (m, Trace.parsing text t) := by
  simp [Step.parsing, h]

theorem step_sending_eq (req : EmailParams) (rest : Step) (t : Trace) (m : ModuleState)
    (h : rest m = (m, t)) : Step.sending req rest m = (m, Trace.sending req t) := by
  simp [Step.sending, h]

theorem step_ite_eq (c : Prop) [Decidable c] (a b : Step) (ta tb : Trace) (m : ModuleState)
    (ha : a m = (m, ta)) (hb : b m = (m, tb)) :
    (if c then a else b) m = (m, if c then ta else tb) := by
  split
  · exact ha
  · exact hb

theorem step_reject_eq (line : String) (m : ModuleState) :
    Step.log line (Step.done none) m = (m, Trace.log line Trace.skip) :=
  step_log_eq line _ _ m rfl

theorem stateful_sendEmail_eq (m : ModuleState) (ses : Ses) (toAddress : JSVal)
    (subject message : String) (callback : Step) (t : Trace) (h : callback m = (m, t)) :
    Stateful.sendEmail ses toAddress subject message callback m =
      (m, sendEmail m ses toAddress subject message t) := by
  unfold Stateful.sendEmail sendEmail
  refine step_sending_eq _ _ _ m ?_
  generalize ses _ = answer
  cases answer with
  | some err => exact step_log_eq _ _ _ m rfl
  | none => exact step_log_eq _ _ _ m h

theorem stateful_notify_eq (rt : Runtime) (m : ModuleState) (ses : Ses) (message : JSVal)
    (owner ownerDL securityGroupId securityGroupName : JSVal) :
    Stateful.notify rt ses message owner ownerDL securityGroupId securityGroupName m =
      (m, notify rt m ses message owner ownerDL securityGroupId securityGroupName) := by
  unfold Stateful.notify notify
  refine step_eval_eq _ _ _ m fun _ => step_log_eq _ _ _ m ?_
  refine step_eval_eq _ _ _ m fun _ => step_log_eq _ _ _ m ?_
  refine step_eval_eq _ _ _ m fun _ => step_log_eq _ _ _ m ?_
  refine step_eval_eq _ _ _ m fun _ => ?_
  refine step_eval_eq _ _ _ m fun _ => ?_
  refine step_eval_eq _ _ _ m fun _ => ?_
  refine step_eval_eq _ _ _ m fun _ => ?_
  refine step_log_eq _ _ _ m ?_
  exact stateful_sendEmail_eq m ses _ _ _ _ _ rfl

theorem stateful_ownerGate_eq (rt : Runtime) (m : ModuleState) (ses : Ses)
    (message : JSVal) :
    Stateful.ownerGate rt ses message m = (m, ownerGate rt m ses message) := by
  unfold Stateful.ownerGate ownerGate
  refine step_eval_eq _ _ _ m fun _ => ?_
  refine step_eval_eq _ _ _ m fun _ => ?_
  refine step_eval_eq _ _ _ m fun _ => ?_
  refine step_eval_eq _ _ _ m fun _ => ?_
  refine step_ite_eq _ _ _ _ _ m (step_reject_eq _ m) ?_
  refine step_eval_eq _ _ _ m fun _ => ?_
  exact step_ite_eq _ _ _ _ _ m (step_reject_eq _ m) (stateful_notify_eq rt m ses _ _ _ _ _)

theorem stateful_notifyGate_eq (rt : Runtime) (m : ModuleState) (ses : Ses)
    (message : JSVal) :
    Stateful.notifyGate rt ses message m = (m, notifyGate rt m ses message) := by
  unfold Stateful.notifyGate notifyGate
  refine step_eval_eq _ _ _ m fun _ => ?_
  refine step_ite_eq _ _ _ _ _ m (step_reject_eq _ m) ?_
  refine step_eval_eq _ _ _ m fun _ => ?_
  refine step_ite_eq _ _ _ _ _ m (step_reject_eq _ m) ?_
  refine step_eval_eq _ _ _ m fun _ => ?_
  exact step_ite_eq _ _ _ _ _ m (step_reject_eq _ m) (stateful_ownerGate_eq rt m ses message)

theorem stateful_validateMessage_eq (rt : Runtime) (m : ModuleState) (ses : Ses)
    (message : JSVal) :
    Stateful.validateMessage rt ses message m = (m, validateMessage rt m ses message) := by
  unfold Stateful.validateMessage validateMessage
  refine step_ite_eq _ _ _ _ _ m (step_reject_eq _ m) ?_
  refine step_eval_eq _ _ _ m fun _ => ?_
  refine step_ite_eq _ _ _ _ _ m (step_reject_eq _ m) ?_
  refine step_eval_eq _ _ _ m fun _ => ?_
  refine step_ite_eq _ _ _ _ _ m (step_reject_eq _ m) ?_
  refine step_eval_eq _ _ _ m fun _ => ?_
  exact step_ite_eq _ _ _ _ _ m (step_reject_eq _ m) (stateful_notifyGate_eq rt m ses message)

theorem stateful_handler_eq (rt : Runtime) (m : ModuleState) (ses : Ses) (event : Event) :
    Stateful.handler rt ses event m = (m, handler rt m ses event) := by
  obtain ⟨records⟩ := event
  unfold Stateful.handler handler
  cases records with
  | none => rfl
  | some list =>
    cases list with
    | nil => rfl
    | cons first rest =>
      dsimp only
      refine step_eval_eq _ _ _ m fun _ => ?_
      refine step_ite_eq _ _ _ _ _ m rfl ?_
      refine step_eval_eq _ _ _ m fun _ => ?_
      refine step_ite_eq _ _ _ _ _ m rfl ?_
      refine step_eval_eq _ _ _ m fun _ => step_parsing_eq _ _ _ m ?_
      generalize rt.parse _ = parsed
      cases parsed with
      | none => rfl
      | some message => exact stateful_validateMessage_eq rt m ses message

theorem stateful_invokeAll_eq (rt : Runtime) (m : ModuleState) (runs : List (Ses × Event)) :
    Stateful.invokeAll rt m runs =
      (m, runs.map fun run => (Stateful.handler rt run.1 run.2 m).2) := by
  induction runs with
  | nil => rfl
  | cons run rest ih =>
    obtain ⟨ses, event⟩ := run
    simp only [Stateful.invokeAll, stateful_handler_eq, ih, List.map_cons]

/-- C10. The handler keeps nothing between invocations. After any sequence of
earlier invocations on the loaded module (any events, any answers of the send
capability), two further invocations with the same envelope that reaches the
send leave the module state, `fromAddress` included, as it was when the module
was loaded, and issue two send requests, one per invocation: nothing is
remembered or deduplicated, and both requests are equal to each other and to
the request a single invocation on the freshly loaded module issues, whatever
the send capability answers in either invocation. -/
theorem two_invocations_two_equal_sends (rt : Runtime) (m : ModuleState)
    (before : List (Ses × Event)) (ses1 ses2 : Ses) (event : Event)
    (h : (Stateful.handler rt ses1 event m).2.sends ≠ []) :
    ∃ req, (∀ ses, (Stateful.handler rt ses event m).2.sends = [req]) ∧
      (Stateful.invokeAll rt m (before ++ [(ses1, event), (ses2, event)])).1 = m ∧
      (((Stateful.invokeAll rt m (before ++ [(ses1, event), (ses2, event)])).2.drop
          before.length).map Trace.sends) = [[req], [req]] := by
  rw [stateful_handler_eq] at h
  have hone : ∃ req, (handler rt m ses1 event).sends = [req] := by
    rcases shape_handler rt m ses1 event with ⟨hs, -⟩ | ⟨req, hs, -, -⟩
    · exact absurd hs h
    · exact ⟨req, hs⟩
  obtain ⟨req, hreq⟩ := hone
  have hall : ∀ ses, (Stateful.handler rt ses event m).2.sends = [req] := by
    intro ses
    rw [stateful_handler_eq]
    show (handler rt m ses event).sends = [req]
    rw [handler_sends_congr rt m ses ses1 event, hreq]
  refine ⟨req, hall, ?_, ?_⟩
  · rw [stateful_invokeAll_eq]
  · rw [stateful_invokeAll_eq]
    simp [List.drop_append, hall]

theorem sample_sends_stateful :
    (Stateful.handler sampleRuntime sesOk (envelope sampleText) sampleModule).2.sends ≠ [] := by
  rw [stateful_handler_eq]
  show (handler sampleRuntime sampleModule sesOk (envelope sampleText)).sends ≠ []
  rw [handler_sends_congr sampleRuntime sampleModule sesOk sesDown (envelope sampleText)]
  exact sample_sends_when_down

/-- Witness of C10: after an invocation for an instance change and one with a
payload that is not JSON, the sample event twice, accepted the first time and
refused the second time. -/
theorem two_invocations_two_equal_sends_witness :
    ∃ req, (∀ ses, (Stateful.handler sampleRuntime ses (envelope sampleText)
          sampleModule).2.sends = [req]) ∧
      (Stateful.invokeAll sampleRuntime sampleModule
        ([(sesOk, envelope instanceText), (sesDown, envelope "not json")] ++
          [(sesOk, envelope sampleText), (sesDown, envelope sampleText)])).1 = sampleModule ∧
      (((Stateful.invokeAll sampleRuntime sampleModule
        ([(sesOk, envelope instanceText), (sesDown, envelope "not json")] ++
          [(sesOk, envelope sampleText), (sesDown, envelope sampleText)])).2.drop
          [(sesOk, envelope instanceText), (sesDown, envelope "not json")].length).map
            Trace.sends) = [[req], [req]] :=
  two_invocations_two_equal_sends sampleRuntime sampleModule
    [(sesOk, envelope instanceText), (sesDown, envelope "not json")] sesOk sesDown
    (envelope sampleText) sample_sends_stateful

end SgNotify
